import Mathlib

/-!
Verification of the drug/mixture graph core of the Schedule-1-Helper
repository (src/model.py, src/main.py, src/main_V2.py).

Python dicts are embedded as association lists `List (String × α)`:
insertion order is significant (Python dicts preserve it and `calc_cost`
iterates `mixed_with` in that order), assignment to an existing key keeps
its position, and assignment to a fresh key appends at the end.
-/

namespace ScheduleHelper

/-- Lookup in an association list: first entry with the given key
(Python `d[k]` / `d.get(k)` on a dict, whose keys are unique). -/
def alookup {α : Type} : List (String × α) → String → Option α
  | [], _ => none
  | (k, v) :: t, key => if k = key then some v else alookup t key

/-- Python dict assignment `d[k] = v`: replace the value at an existing key
in place, otherwise append the new binding at the end. -/
def ainsert {α : Type} : List (String × α) → String → α → List (String × α)
  | [], key, v => [(key, v)]
  | (k, w) :: t, key, v => if k = key then (key, v) :: t else (k, w) :: ainsert t key v

/-- In-place mutation of the object stored at a key (Python
`d[k].field = x`): apply `f` to every value bound to `key`, keeping
positions. On the unique-key lists produced by the model this touches
exactly the one binding. -/
def aupdate {α : Type} (l : List (String × α)) (key : String) (f : α → α) : List (String × α) :=
  l.map (fun p => if p.1 = key then (p.1, f p.2) else p)

/-- model.py lines 7-20: pydantic entity `Drug`. -/
structure Drug where
  name : String
  value : Int
  mixed_with : List (String × String)
  creates_with : List (String × String)
deriving DecidableEq

/-- model.py lines 22-27: `is_base` returns True when `mixed_with` is
falsy, else `len(mixed_with.values()) == 1 and name in mixed_with.values()`. -/
def Drug.is_base (d : Drug) : Bool :=
  if d.mixed_with.isEmpty then true
  else d.mixed_with.length == 1 && (d.mixed_with.map Prod.snd).contains d.name

/-- main_V2.py lines 24-26: the variant `is_base`, `return not self.mixed_with`. -/
def isBaseV2 (d : Drug) : Bool :=
  d.mixed_with.isEmpty

/-- model.py lines 29-37: pydantic aggregate `DrugSet` with declared
fields `drugs` and `ingredients`. -/
structure DrugSet where
  drugs : List (String × Drug)
  ingredients : List (String × Int)
deriving DecidableEq

/-- A fresh `DrugSet()` (both pydantic defaults empty). -/
def emptyDS : DrugSet := ⟨[], []⟩

/-- model.py lines 50-51: `self.drugs[name].value = value`. -/
def setValue (s : DrugSet) (name : String) (value : Int) : DrugSet :=
  { s with drugs := aupdate s.drugs name (fun d => { d with value := value }) }

/-- model.py lines 53 and 57: `self.drugs[name].mixed_with[ingredient] = base`. -/
def addMixed (s : DrugSet) (name ingredient base : String) : DrugSet :=
  { s with drugs := aupdate s.drugs name (fun d => { d with mixed_with := ainsert d.mixed_with ingredient base }) }

/-- model.py lines 61 and 64: `self.drugs[base].creates_with[ingredient] = name`. -/
def addCreates (s : DrugSet) (base ingredient name : String) : DrugSet :=
  { s with drugs := aupdate s.drugs base (fun d => { d with creates_with := ainsert d.creates_with ingredient name }) }

/-- model.py lines 55 and 63: `self.drugs[k] = Drug(...)`. -/
def putDrug (s : DrugSet) (name : String) (d : Drug) : DrugSet :=
  { s with drugs := ainsert s.drugs name d }

/-- model.py lines 49-57: the first half of `add_drug`. Python truthiness:
`if value:` is `value ≠ 0`, `if base and ingredient:` is both strings
non-empty. -/
def nameBlock (s : DrugSet) (name : String) (value : Int) (base ingredient : String) : DrugSet :=
  if (alookup s.drugs name).isSome then
    if base ≠ "" ∧ ingredient ≠ "" then
      addMixed (if value ≠ 0 then setValue s name value else s) name ingredient base
    else (if value ≠ 0 then setValue s name value else s)
  else
    if base ≠ "" ∧ ingredient ≠ "" then
      addMixed (putDrug s name (Drug.mk name value [] [])) name ingredient base
    else putDrug s name (Drug.mk name value [] [])

/-- model.py lines 59-64: the second half of `add_drug`, recording the
inverse edge, auto-creating the base drug with value 0 when absent. -/
def baseBlock (s : DrugSet) (name base ingredient : String) : DrugSet :=
  if base ≠ "" ∧ ingredient ≠ "" then
    if (alookup s.drugs base).isSome then addCreates s base ingredient name
    else addCreates (putDrug s base (Drug.mk base 0 [] [])) base ingredient name
  else s

/-- model.py lines 39-64: `DrugSet.add_drug`. -/
def DrugSet.add_drug (s : DrugSet) (name : String) (value : Int) (base ingredient : String) : DrugSet :=
  baseBlock (nameBlock s name value base ingredient) name base ingredient

/-- model.py line 66-76: `get_drug` via `dict.get`. -/
def DrugSet.get_drug (s : DrugSet) (name : String) : Option Drug :=
  alookup s.drugs name

/-- Python runtime errors surfaced by the embedded methods. -/
inductive PyError where
  | attributeError (attr : String)
  | keyError (key : String)
deriving DecidableEq

/-- Pydantic attribute resolution for an int-dict attribute of `DrugSet`:
the model declares exactly the fields `drugs` and `ingredients`
(model.py lines 36-37), so only the spelling `ingredients` resolves to the
ingredient table; any other attribute name raises `AttributeError`. -/
def DrugSet.intDictAttr (s : DrugSet) (attr : String) : Except PyError (List (String × Int)) :=
  if attr = "ingredients" then Except.ok s.ingredients
  else Except.error (PyError.attributeError attr)

/-- model.py lines 78-86: `set_ingredient` executes
`self.ingridients[name] = value` — note the misspelled attribute
`ingridients`, which is not a declared field; the write-back lands in the
ingredient table only in the (unreachable) case the attribute resolves. -/
def DrugSet.set_ingredient (s : DrugSet) (name : String) (value : Int) : Except PyError DrugSet :=
  match s.intDictAttr "ingridients" with
  | Except.error e => Except.error e
  | Except.ok d => Except.ok { s with ingredients := ainsert d name value }

/-- model.py lines 88-95: `get_ingredient` executes
`self.ingridients[name] if name in self.ingridients else 0`, again on the
misspelled attribute `ingridients`. -/
def DrugSet.get_ingredient (s : DrugSet) (name : String) : Except PyError Int :=
  match s.intDictAttr "ingridients" with
  | Except.error e => Except.error e
  | Except.ok d =>
    match alookup d name with
    | some v => Except.ok v
    | none => Except.ok 0

/-- Outcome of running a (possibly non-terminating) Python computation:
a returned value, an uncaught `KeyError`, or failure to finish within the
given fuel (the loop in `calc_cost` has no other exit). -/
inductive PyResult (α : Type) where
  | ok (v : α)
  | keyError (key : String)
  | diverge
deriving DecidableEq

/-- main.py lines 36-44, the body of the `while not node.is_base()` loop of
`calc_cost`, one iteration per unit of fuel. The `for`/`break` picks the
first `(ingredient, child)` of `mixed_with` with `child != node.name`;
when none exists the loop body changes nothing and the loop spins. The
cost uses `drug_set.ingredients[ingredient]` (plain indexing, KeyError if
absent), then `node = drug_set.drugs[child]` (KeyError if absent). -/
def calcCostAux (drug_set : DrugSet) : Nat → Int → Drug → PyResult Int
  | 0, _, _ => PyResult.diverge
  | fuel + 1, cost, node =>
    if node.is_base then PyResult.ok (cost + node.value)
    else
      match node.mixed_with.find? (fun p => p.2 != node.name) with
      | none => calcCostAux drug_set fuel cost node
      | some (ingredient, child) =>
        match alookup drug_set.ingredients ingredient with
        | none => PyResult.keyError ingredient
        | some c =>
          match alookup drug_set.drugs child with
          | none => PyResult.keyError child
          | some next => calcCostAux drug_set fuel (cost + c) next

/-- main.py lines 36-44: `calc_cost(drug_set, node)`, fuel-indexed. -/
def calc_cost (drug_set : DrugSet) (node : Drug) (fuel : Nat) : PyResult Int :=
  calcCostAux drug_set fuel 0 node

/-- The value of the drug stored under `n`, if any. -/
def drugValueAt (s : DrugSet) (n : String) : Option Int :=
  (alookup s.drugs n).map Drug.value

/-- The base recorded in `drugs[n].mixed_with[i]`, if any. -/
def drugMixedAt (s : DrugSet) (n i : String) : Option String :=
  match alookup s.drugs n with
  | some d => alookup d.mixed_with i
  | none => none

/-- The product recorded in `drugs[b].creates_with[i]`, if any. -/
def drugCreatesAt (s : DrugSet) (b i : String) : Option String :=
  match alookup s.drugs b with
  | some d => alookup d.creates_with i
  | none => none

/-- A successful run of the `calc_cost` loop: `Chain ds d n cost last`
says that starting from `d` and repeatedly following the first
non-self-referential `mixed_with` entry, each ingredient being present in
the ingredient table, the walk reaches the base drug `last` after `n`
steps with accumulated ingredient cost `cost`. -/
inductive Chain (ds : DrugSet) : Drug → Nat → Int → Drug → Prop where
  | base (d : Drug) (hb : d.is_base = true) : Chain ds d 0 0 d
  | step (d : Drug) (ing child : String) (c : Int) (next : Drug) (n : Nat) (rest : Int) (last : Drug)
      (hnb : d.is_base = false)
      (hfind : d.mixed_with.find? (fun p => p.2 != d.name) = some (ing, child))
      (hing : alookup ds.ingredients ing = some c)
      (hchild : alookup ds.drugs child = some next)
      (hrest : Chain ds next n rest last) :
      Chain ds d (n + 1) (c + rest) last

/-! Concrete states used by counterexamples and witnesses. -/

/-- State after `add_drug("A",0,"B","x"); add_drug("C",0,"B","x")`:
the second call overwrites `drugs["B"].creates_with["x"]`. -/
def cexDS : DrugSet := (emptyDS.add_drug "A" 0 "B" "x").add_drug "C" 0 "B" "x"

/-- State after `add_drug("A",7,"B","x"); add_drug("B",3)`: a one-step
chain from A to base B whose ingredient `x` has no entry in the
(necessarily empty) ingredient table. -/
def ds3 : DrugSet := (emptyDS.add_drug "A" 7 "B" "x").add_drug "B" 3 "" ""

/-- The drug stored under "A" in `ds3`. -/
def dA3 : Drug := Drug.mk "A" 7 [("x", "B")] []

/-- The drug stored under "B" in `ds3`. -/
def dB3 : Drug := Drug.mk "B" 3 [] [("x", "A")]

/-- The state `ds3` with the ingredient `x` priced at 2 (as a loaded
snapshot could provide), so the chain from A is fully priced. -/
def wds : DrugSet := { ds3 with ingredients := [("x", 2)] }

/-- Cyclic state: `add_drug("A",0,"B","x"); add_drug("B",0,"A","y")` with
both ingredients priced (as a loaded snapshot could provide). -/
def cycDS : DrugSet :=
  { (emptyDS.add_drug "A" 0 "B" "x").add_drug "B" 0 "A" "y" with
    ingredients := [("x", 1), ("y", 1)] }

/-- The drug stored under "A" in `cycDS`. -/
def cycA : Drug := Drug.mk "A" 0 [("x", "B")] [("y", "B")]

/-- The drug stored under "B" in `cycDS`. -/
def cycB : Drug := Drug.mk "B" 0 [("y", "A")] [("x", "A")]

/-- A drug with two self-referential recipe entries. -/
def cexBaseDrug : Drug := Drug.mk "A" 0 [("i", "A"), ("j", "A")] []

/-- State after `add_drug("A",7)`: drug A exists with value 7. -/
def s9 : DrugSet := emptyDS.add_drug "A" 7 "" ""

/-! Persistence model (model.py lines 97-123). `json.dump`/`json.load`
transport string/int/object values losslessly, so the snapshot file is
embedded as the JSON value itself; `save_to_file` writes
`model_dump()` and `load_from_file` applies `model_validate`. -/

/-- JSON values appearing in a `DrugSet` snapshot. -/
inductive Json where
  | str (s : String)
  | int (n : Int)
  | obj (fields : List (String × Json))

/-- Dump of a `dict[str, str]` field. -/
def strEntries (l : List (String × String)) : List (String × Json) :=
  l.map (fun p => (p.1, Json.str p.2))

/-- Dump of a `dict[str, int]` field. -/
def intEntries (l : List (String × Int)) : List (String × Json) :=
  l.map (fun p => (p.1, Json.int p.2))

/-- Pydantic `model_dump` of a `Drug` (field order as declared). -/
def Drug.model_dump (d : Drug) : Json :=
  Json.obj [("name", Json.str d.name), ("value", Json.int d.value),
            ("mixed_with", Json.obj (strEntries d.mixed_with)),
            ("creates_with", Json.obj (strEntries d.creates_with))]

/-- Validation of a `dict[str, str]` field value, entry by entry. -/
def parseStrEntries : List (String × Json) → Option (List (String × String))
  | [] => some []
  | (k, Json.str v) :: t =>
    match parseStrEntries t with
    | some r => some ((k, v) :: r)
    | none => none
  | _ => none

/-- Validation of a `dict[str, int]` field value, entry by entry. -/
def parseIntEntries : List (String × Json) → Option (List (String × Int))
  | [] => some []
  | (k, Json.int v) :: t =>
    match parseIntEntries t with
    | some r => some ((k, v) :: r)
    | none => none
  | _ => none

/-- Field access for an optional `int` field: absent means the declared
default 0, a non-int value fails validation. -/
def parseIntField (j : Option Json) : Option Int :=
  match j with
  | none => some 0
  | some (Json.int v) => some v
  | some _ => none

/-- Field access for an optional `dict[str, str]` field: absent means the
declared default `{}`. -/
def parseStrDictField (j : Option Json) : Option (List (String × String)) :=
  match j with
  | none => some []
  | some (Json.obj fs) => parseStrEntries fs
  | some _ => none

/-- Pydantic `model_validate` of a `Drug`: `name` required, the other
fields defaulted when absent. -/
def Drug.model_validate (j : Json) : Option Drug :=
  match j with
  | Json.obj fields =>
    match alookup fields "name", parseIntField (alookup fields "value"),
          parseStrDictField (alookup fields "mixed_with"),
          parseStrDictField (alookup fields "creates_with") with
    | some (Json.str n), some v, some m, some c => some (Drug.mk n v m c)
    | _, _, _, _ => none
  | _ => none

/-- Dump of the `drugs` field. -/
def drugEntries (l : List (String × Drug)) : List (String × Json) :=
  l.map (fun p => (p.1, Drug.model_dump p.2))

/-- Validation of the `drugs` field value, entry by entry. -/
def parseDrugEntries : List (String × Json) → Option (List (String × Drug))
  | [] => some []
  | (k, j) :: t =>
    match Drug.model_validate j, parseDrugEntries t with
    | some d, some r => some ((k, d) :: r)
    | _, _ => none

/-- Field access for the optional `dict[str, Drug]` field. -/
def parseDrugDictField (j : Option Json) : Option (List (String × Drug)) :=
  match j with
  | none => some []
  | some (Json.obj fs) => parseDrugEntries fs
  | some _ => none

/-- Field access for the optional `dict[str, int]` field. -/
def parseIntDictField (j : Option Json) : Option (List (String × Int)) :=
  match j with
  | none => some []
  | some (Json.obj fs) => parseIntEntries fs
  | some _ => none

/-- Pydantic `model_dump` of a `DrugSet` (model.py line 105). -/
def DrugSet.model_dump (s : DrugSet) : Json :=
  Json.obj [("drugs", Json.obj (drugEntries s.drugs)),
            ("ingredients", Json.obj (intEntries s.ingredients))]

/-- Pydantic `model_validate` of a `DrugSet` (model.py line 122). -/
def DrugSet.model_validate (j : Json) : Option DrugSet :=
  match j with
  | Json.obj fields =>
    match parseDrugDictField (alookup fields "drugs"),
          parseIntDictField (alookup fields "ingredients") with
    | some ds, some ing => some (DrugSet.mk ds ing)
    | _, _ => none
  | _ => none

/-! Association-list lemmas. -/

theorem alookup_cons {α : Type} (a : String) (v : α) (t : List (String × α)) (k : String) :
    alookup ((a, v) :: t) k = if a = k then some v else alookup t k := rfl

theorem alookup_eq_none {α : Type} (l : List (String × α)) (k : String)
    (h : alookup l k = none) : ∀ p ∈ l, p.1 ≠ k := by
  induction l with
  | nil => simp
  | cons a t ih =>
    obtain ⟨ak, av⟩ := a
    rw [alookup_cons] at h
    by_cases hk : ak = k
    · rw [if_pos hk] at h; cases h
    · rw [if_neg hk] at h
      intro p hp
      rcases List.mem_cons.mp hp with rfl | hpt
      · exact hk
      · exact ih h p hpt

theorem alookup_mem {α : Type} (l : List (String × α)) (k : String) (x : α)
    (h : alookup l k = some x) : (k, x) ∈ l := by
  induction l with
  | nil => cases h
  | cons a t ih =>
    obtain ⟨ak, av⟩ := a
    rw [alookup_cons] at h
    by_cases hk : ak = k
    · rw [if_pos hk] at h
      injection h with hv
      subst hk; subst hv
      exact List.mem_cons_self _ _
    · rw [if_neg hk] at h
      exact List.mem_cons_of_mem _ (ih h)

theorem ainsert_cons {α : Type} (ak : String) (av : α) (t : List (String × α))
    (k : String) (v : α) :
    ainsert ((ak, av) :: t) k v =
      if ak = k then (k, v) :: t else (ak, av) :: ainsert t k v := rfl

theorem aupdate_cons {α : Type} (ak : String) (av : α) (t : List (String × α))
    (k : String) (f : α → α) :
    aupdate ((ak, av) :: t) k f =
      (if ak = k then (ak, f av) else (ak, av)) :: aupdate t k f := by
  by_cases hk : ak = k <;> simp [aupdate, hk]

theorem alookup_ainsert_self {α : Type} (l : List (String × α)) (k : String) (v : α) :
    alookup (ainsert l k v) k = some v := by
  induction l with
  | nil => simp [ainsert, alookup]
  | cons a t ih =>
    obtain ⟨ak, av⟩ := a
    rw [ainsert_cons]
    by_cases hk : ak = k
    · rw [if_pos hk, alookup_cons, if_pos rfl]
    · rw [if_neg hk, alookup_cons, if_neg hk, ih]

theorem alookup_ainsert_ne {α : Type} (l : List (String × α)) (k j : String) (v : α)
    (hj : j ≠ k) : alookup (ainsert l k v) j = alookup l j := by
  induction l with
  | nil => simp [ainsert, alookup, Ne.symm hj]
  | cons a t ih =>
    obtain ⟨ak, av⟩ := a
    rw [ainsert_cons]
    by_cases hk : ak = k
    · subst hk
      rw [if_pos rfl, alookup_cons, if_neg (Ne.symm hj), alookup_cons, if_neg (Ne.symm hj)]
    · rw [if_neg hk, alookup_cons]
      by_cases haj : ak = j
      · rw [if_pos haj, alookup_cons, if_pos haj]
      · rw [if_neg haj, alookup_cons, if_neg haj, ih]

theorem alookup_aupdate_self {α : Type} (l : List (String × α)) (k : String) (f : α → α) :
    alookup (aupdate l k f) k = (alookup l k).map f := by
  induction l with
  | nil => rfl
  | cons a t ih =>
    obtain ⟨ak, av⟩ := a
    rw [aupdate_cons]
    by_cases hk : ak = k
    · rw [if_pos hk, alookup_cons, if_pos hk, alookup_cons, if_pos hk]
      rfl
    · rw [if_neg hk, alookup_cons, if_neg hk, alookup_cons, if_neg hk, ih]

theorem alookup_aupdate_ne {α : Type} (l : List (String × α)) (k j : String) (f : α → α)
    (hj : j ≠ k) : alookup (aupdate l k f) j = alookup l j := by
  induction l with
  | nil => rfl
  | cons a t ih =>
    obtain ⟨ak, av⟩ := a
    rw [aupdate_cons]
    by_cases hk : ak = k
    · subst hk
      rw [if_pos rfl, alookup_cons, if_neg (Ne.symm hj), alookup_cons,
        if_neg (Ne.symm hj), ih]
    · rw [if_neg hk, alookup_cons]
      by_cases haj : ak = j
      · rw [if_pos haj, alookup_cons, if_pos haj]
      · rw [if_neg haj, alookup_cons, if_neg haj, ih]

theorem alookup_aupdate_isSome {α : Type} (l : List (String × α)) (k j : String) (f : α → α) :
    (alookup (aupdate l k f) j).isSome = (alookup l j).isSome := by
  by_cases hj : j = k
  · subst hj
    rw [alookup_aupdate_self]
    cases alookup l j <;> rfl
  · rw [alookup_aupdate_ne l k j f hj]

theorem mem_ainsert {α : Type} (l : List (String × α)) (k : String) (v : α) :
    ∀ q ∈ ainsert l k v, q = (k, v) ∨ q ∈ l := by
  induction l with
  | nil => simp [ainsert]
  | cons a t ih =>
    obtain ⟨ak, av⟩ := a
    by_cases hk : ak = k
    · intro q hq
      rw [ainsert, if_pos hk] at hq
      rcases List.mem_cons.mp hq with rfl | hqt
      · exact Or.inl rfl
      · exact Or.inr (List.mem_cons_of_mem _ hqt)
    · intro q hq
      rw [ainsert, if_neg hk] at hq
      rcases List.mem_cons.mp hq with rfl | hqt
      · exact Or.inr (List.mem_cons_self _ _)
      · rcases ih q hqt with hq1 | hq2
        · exact Or.inl hq1
        · exact Or.inr (List.mem_cons_of_mem _ hq2)

theorem mem_aupdate {α : Type} (l : List (String × α)) (k : String) (f : α → α) :
    ∀ q ∈ aupdate l k f, ∃ p ∈ l, q = if p.1 = k then (p.1, f p.2) else p := by
  intro q hq
  unfold aupdate at hq
  rcases List.mem_map.mp hq with ⟨p, hp, hq2⟩
  exact ⟨p, hp, hq2.symm⟩

theorem aupdate_eq_self {α : Type} (l : List (String × α)) (k : String) (f : α → α)
    (h : ∀ p ∈ l, p.1 = k → f p.2 = p.2) : aupdate l k f = l := by
  have h2 : ∀ p ∈ l, (if p.1 = k then (p.1, f p.2) else p) = id p := by
    intro p hp
    obtain ⟨p1, p2⟩ := p
    by_cases hpk : p1 = k
    · have hf : f p2 = p2 := h (p1, p2) hp hpk
      simp [hpk, hf]
    · simp [hpk]
  unfold aupdate
  rw [List.map_congr_left h2, List.map_id]

theorem ainsert_eq_self {α : Type} (l : List (String × α)) (k : String) (v : α)
    (h : alookup l k = some v) : ainsert l k v = l := by
  induction l with
  | nil => cases h
  | cons a t ih =>
    obtain ⟨ak, av⟩ := a
    rw [alookup_cons] at h
    by_cases hk : ak = k
    · rw [if_pos hk] at h
      injection h with hv
      simp [ainsert, hk, hv]
    · rw [if_neg hk] at h
      simp [ainsert, hk, ih h]

theorem aupdate_at_key {α : Type} (l : List (String × α)) (k : String) (f : α → α)
    (Q : α → Prop) (hf : ∀ x, Q (f x)) : ∀ q ∈ aupdate l k f, q.1 = k → Q q.2 := by
  intro q hq hqk
  rcases mem_aupdate l k f q hq with ⟨p, hp, hq2⟩
  by_cases hpk : p.1 = k
  · rw [if_pos hpk] at hq2
    subst hq2
    exact hf p.2
  · rw [if_neg hpk] at hq2
    subst hq2
    exact absurd hqk hpk

theorem aupdate_preserves_pred {α : Type} (l : List (String × α)) (k n : String) (f : α → α)
    (Q : α → Prop) (hf : ∀ x, Q x → Q (f x)) (h : ∀ p ∈ l, p.1 = n → Q p.2) :
    ∀ q ∈ aupdate l k f, q.1 = n → Q q.2 := by
  intro q hq hqn
  rcases mem_aupdate l k f q hq with ⟨p, hp, hq2⟩
  by_cases hpk : p.1 = k
  · rw [if_pos hpk] at hq2
    subst hq2
    exact hf p.2 (h p hp hqn)
  · rw [if_neg hpk] at hq2
    subst hq2
    exact h q hp hqn

theorem ainsert_preserves_pred {α : Type} (l : List (String × α)) (k n : String) (v : α)
    (Q : α → Prop) (hv : k = n → Q v) (h : ∀ p ∈ l, p.1 = n → Q p.2) :
    ∀ q ∈ ainsert l k v, q.1 = n → Q q.2 := by
  intro q hq hqn
  rcases mem_ainsert l k v q hq with rfl | hql
  · exact hv hqn
  · exact h q hql hqn

/-! Claim theorems. -/

/-- C2 (code bug witness): both ingredient accessors read the misspelled
attribute `ingridients`, which is not a declared field of the pydantic
model, so on every state and for every name they raise `AttributeError`
instead of storing the cost or returning the stored cost or the default 0. -/
theorem ingredient_accessors_raise_attribute_error (s : DrugSet) (name : String) (value : Int) :
    s.get_ingredient name = Except.error (PyError.attributeError "ingridients") ∧
    s.set_ingredient name value = Except.error (PyError.attributeError "ingridients") :=
  ⟨rfl, rfl⟩

/-- C7 (code bug witness): `add_drug` performs no validation. With an empty
name it silently creates a drug keyed by the empty string (mutating the
state, no error — the function has no error channel at all), and with only
`base` given it silently drops the mixture information. -/
theorem add_drug_accepts_malformed_arguments :
    (emptyDS.add_drug "" 5 "" "").drugs = [("", Drug.mk "" 5 [] [])] ∧
    (emptyDS.add_drug "A" 1 "B" "").drugs = [("A", Drug.mk "A" 1 [] [])] := by
  decide

/-- C1 counterexample: after `add_drug("A",0,"B","x"); add_drug("C",0,"B","x")`
the pair `("x","B")` is in drug A's `mixed_with` but
`drugs["B"].creates_with["x"]` is `"C"`, not `"A"`: the second call
overwrote the inverse edge, so the claimed invariant fails. -/
theorem add_drug_inverse_invariant_cex :
    drugMixedAt cexDS "A" "x" = some "B" ∧ drugCreatesAt cexDS "B" "x" = some "C" := by
  decide

/-- C5 counterexample: a drug whose two `mixed_with` entries both map to its
own name is classified as NOT base by both variants (`model.py` requires
exactly one value, `main_V2.py` requires the mapping to be empty), while
the claim says it is a base. -/
theorem is_base_two_self_entries_cex :
    cexBaseDrug.name = "A" ∧ cexBaseDrug.mixed_with = [("i", "A"), ("j", "A")] ∧
    cexBaseDrug.is_base = false ∧ isBaseV2 cexBaseDrug = false := by
  decide

/-- C3 counterexample: in `ds3` drug A reaches base B in one step through
ingredient "x", which is absent from the ingredient table; the claim
predicts cost `0 + 3`, but `calc_cost` raises `KeyError` on the plain
indexing `drug_set.ingredients[ingredient]`. -/
theorem calc_cost_unknown_ingredient_cex :
    alookup ds3.drugs "A" = some dA3 ∧ alookup ds3.ingredients "x" = none ∧
    alookup ds3.drugs "B" = some dB3 ∧ dB3.value = 3 ∧
    calc_cost ds3 dA3 5 = PyResult.keyError "x" := by
  decide

theorem cyc_aux : ∀ fuel : Nat, ∀ cost : Int,
    calcCostAux cycDS fuel cost cycA = PyResult.diverge ∧
    calcCostAux cycDS fuel cost cycB = PyResult.diverge := by
  intro fuel
  induction fuel with
  | zero => intro cost; exact ⟨rfl, rfl⟩
  | succ k ih =>
    intro cost
    constructor
    · have h1 : calcCostAux cycDS (k + 1) cost cycA = calcCostAux cycDS k (cost + 1) cycB := rfl
      rw [h1]
      exact (ih (cost + 1)).2
    · have h2 : calcCostAux cycDS (k + 1) cost cycB = calcCostAux cycDS k (cost + 1) cycA := rfl
      rw [h2]
      exact (ih (cost + 1)).1

/-- C4 (code bug witness): on the cyclic state built by
`add_drug("A",0,"B","x"); add_drug("B",0,"A","y")` with both ingredients
priced, the `calc_cost` loop never terminates — it returns within no
finite fuel bound — and the code has no cyclic-graph error to raise. -/
theorem calc_cost_cycle_diverges :
    alookup cycDS.drugs "A" = some cycA ∧
    ∀ fuel, calc_cost cycDS cycA fuel = PyResult.diverge :=
  ⟨by decide, fun fuel => (cyc_aux fuel 0).1⟩

/-- C5 (amended): `is_base` in model.py returns true iff `mixed_with` is
empty or consists of exactly one entry whose value is the drug's own name;
the main_V2.py variant returns true iff `mixed_with` is empty. A drug with
two or more entries, even all self-referential, is not a base under either
definition. Both functions are pure. -/
theorem is_base_characterization (d : Drug) :
    (d.is_base = true ↔ d.mixed_with = [] ∨ ∃ i, d.mixed_with = [(i, d.name)]) ∧
    (isBaseV2 d = true ↔ d.mixed_with = []) := by
  constructor
  · cases hm : d.mixed_with with
    | nil => simp [Drug.is_base, hm]
    | cons a t =>
      obtain ⟨ai, ab⟩ := a
      cases t with
      | nil =>
        have hbase : d.is_base = decide (d.name = ab) := by
          simp [Drug.is_base, hm, List.contains, List.elem_cons]
        rw [hbase, decide_eq_true_eq]
        constructor
        · intro hb
          refine Or.inr ⟨ai, ?_⟩
          rw [← hb]
        · intro hor
          rcases hor with hnil | ⟨i, hi⟩
          · cases hnil
          · injection hi with hhead htail
            injection hhead with h1 h2
            exact h2.symm
      | cons b t2 => simp [Drug.is_base, hm]
  · simp [isBaseV2, List.isEmpty_iff]

/-! Structural lemmas about `add_drug`. -/

theorem drugs_setValue (s : DrugSet) (n : String) (v : Int) :
    (setValue s n v).drugs = aupdate s.drugs n (fun d => { d with value := v }) := rfl

theorem drugs_addMixed (s : DrugSet) (n i b : String) :
    (addMixed s n i b).drugs =
      aupdate s.drugs n (fun d => { d with mixed_with := ainsert d.mixed_with i b }) := rfl

theorem drugs_addCreates (s : DrugSet) (b i n : String) :
    (addCreates s b i n).drugs =
      aupdate s.drugs b (fun d => { d with creates_with := ainsert d.creates_with i n }) := rfl

theorem drugs_putDrug (s : DrugSet) (n : String) (d : Drug) :
    (putDrug s n d).drugs = ainsert s.drugs n d := rfl

theorem isSome_setValue (s : DrugSet) (n : String) (v : Int) (j : String) :
    (alookup (setValue s n v).drugs j).isSome = (alookup s.drugs j).isSome := by
  rw [drugs_setValue, alookup_aupdate_isSome]

theorem isSome_addMixed (s : DrugSet) (n i b : String) (j : String) :
    (alookup (addMixed s n i b).drugs j).isSome = (alookup s.drugs j).isSome := by
  rw [drugs_addMixed, alookup_aupdate_isSome]

theorem isSome_addCreates (s : DrugSet) (b i n : String) (j : String) :
    (alookup (addCreates s b i n).drugs j).isSome = (alookup s.drugs j).isSome := by
  rw [drugs_addCreates, alookup_aupdate_isSome]

theorem isSome_putDrug_self (s : DrugSet) (n : String) (d : Drug) :
    (alookup (putDrug s n d).drugs n).isSome = true := by
  rw [drugs_putDrug, alookup_ainsert_self]
  rfl

theorem isSome_putDrug_preserve (s : DrugSet) (n : String) (d : Drug) (j : String)
    (h : (alookup s.drugs j).isSome = true) :
    (alookup (putDrug s n d).drugs j).isSome = true := by
  by_cases hj : j = n
  · subst hj
    exact isSome_putDrug_self s j d
  · rw [drugs_putDrug, alookup_ainsert_ne _ _ _ _ hj]
    exact h

theorem nameBlock_name_present (s : DrugSet) (n : String) (v : Int) (b i : String) :
    (alookup (nameBlock s n v b i).drugs n).isSome = true := by
  unfold nameBlock
  by_cases hin : (alookup s.drugs n).isSome
  · rw [if_pos hin]
    by_cases hP : b ≠ "" ∧ i ≠ ""
    · rw [if_pos hP, isSome_addMixed]
      by_cases hv : v ≠ 0
      · rw [if_pos hv, isSome_setValue]
        exact hin
      · rw [if_neg hv]
        exact hin
    · rw [if_neg hP]
      by_cases hv : v ≠ 0
      · rw [if_pos hv, isSome_setValue]
        exact hin
      · rw [if_neg hv]
        exact hin
  · rw [if_neg hin]
    by_cases hP : b ≠ "" ∧ i ≠ ""
    · rw [if_pos hP, isSome_addMixed]
      exact isSome_putDrug_self s n _
    · rw [if_neg hP]
      exact isSome_putDrug_self s n _

theorem baseBlock_present_preserve (X : DrugSet) (nm b i j : String)
    (h : (alookup X.drugs j).isSome = true) :
    (alookup (baseBlock X nm b i).drugs j).isSome = true := by
  unfold baseBlock
  by_cases hP : b ≠ "" ∧ i ≠ ""
  · rw [if_pos hP]
    by_cases hbX : (alookup X.drugs b).isSome
    · rw [if_pos hbX, isSome_addCreates]
      exact h
    · rw [if_neg hbX, isSome_addCreates]
      exact isSome_putDrug_preserve X b _ j h
  · rw [if_neg hP]
    exact h

theorem baseBlock_base_present (X : DrugSet) (nm b i : String)
    (hb : b ≠ "") (hi : i ≠ "") :
    (alookup (baseBlock X nm b i).drugs b).isSome = true := by
  unfold baseBlock
  rw [if_pos ⟨hb, hi⟩]
  by_cases hbX : (alookup X.drugs b).isSome
  · rw [if_pos hbX, isSome_addCreates]
    exact hbX
  · rw [if_neg hbX, isSome_addCreates]
    exact isSome_putDrug_self X b _

theorem add_drug_name_present (s : DrugSet) (n : String) (v : Int) (b i : String) :
    (alookup (s.add_drug n v b i).drugs n).isSome = true :=
  baseBlock_present_preserve _ n b i n (nameBlock_name_present s n v b i)

theorem add_drug_base_present (s : DrugSet) (n : String) (v : Int) (b i : String)
    (hb : b ≠ "") (hi : i ≠ "") :
    (alookup (s.add_drug n v b i).drugs b).isSome = true :=
  baseBlock_base_present _ n b i hb hi

theorem baseBlock_preserves_pred (X : DrugSet) (nm b i n : String) (Q : Drug → Prop)
    (hn : (alookup X.drugs n).isSome = true)
    (hQ : ∀ d, Q d → Q { d with creates_with := ainsert d.creates_with i nm })
    (h : ∀ p ∈ X.drugs, p.1 = n → Q p.2) :
    ∀ p ∈ (baseBlock X nm b i).drugs, p.1 = n → Q p.2 := by
  unfold baseBlock
  by_cases hP : b ≠ "" ∧ i ≠ ""
  · rw [if_pos hP]
    by_cases hbX : (alookup X.drugs b).isSome
    · rw [if_pos hbX]
      intro p hp hpn
      rw [drugs_addCreates] at hp
      exact aupdate_preserves_pred X.drugs b n _ Q hQ h p hp hpn
    · rw [if_neg hbX]
      have hbn : b ≠ n := by
        intro hbn2
        rw [hbn2] at hbX
        exact hbX hn
      intro p hp hpn
      rw [drugs_addCreates, drugs_putDrug] at hp
      refine aupdate_preserves_pred _ b n _ Q hQ ?_ p hp hpn
      exact ainsert_preserves_pred X.drugs b n _ Q (fun hEq => absurd hEq hbn) h
  · rw [if_neg hP]
    exact h

theorem addMixed_mixed_entries (X : DrugSet) (n i b : String) :
    ∀ p ∈ (addMixed X n i b).drugs, p.1 = n → alookup p.2.mixed_with i = some b := by
  intro p hp hpn
  rw [drugs_addMixed] at hp
  exact aupdate_at_key X.drugs n _ (fun d => alookup d.mixed_with i = some b)
    (fun x => alookup_ainsert_self _ _ _) p hp hpn

theorem nameBlock_mixed_entries (s : DrugSet) (n : String) (v : Int) (b i : String)
    (hb : b ≠ "") (hi : i ≠ "") :
    ∀ p ∈ (nameBlock s n v b i).drugs, p.1 = n → alookup p.2.mixed_with i = some b := by
  unfold nameBlock
  by_cases hin : (alookup s.drugs n).isSome
  · rw [if_pos hin, if_pos ⟨hb, hi⟩]
    exact addMixed_mixed_entries _ n i b
  · rw [if_neg hin, if_pos ⟨hb, hi⟩]
    exact addMixed_mixed_entries _ n i b

theorem add_drug_mixed_entries (s : DrugSet) (n : String) (v : Int) (b i : String)
    (hb : b ≠ "") (hi : i ≠ "") :
    ∀ p ∈ (s.add_drug n v b i).drugs, p.1 = n → alookup p.2.mixed_with i = some b := by
  unfold DrugSet.add_drug
  exact baseBlock_preserves_pred _ n b i n (fun d => alookup d.mixed_with i = some b)
    (nameBlock_name_present s n v b i) (fun d hd => hd)
    (nameBlock_mixed_entries s n v b i hb hi)

theorem addCreates_creates_entries (X : DrugSet) (b i nm : String) :
    ∀ p ∈ (addCreates X b i nm).drugs, p.1 = b → alookup p.2.creates_with i = some nm := by
  intro p hp hpb
  rw [drugs_addCreates] at hp
  exact aupdate_at_key X.drugs b _ (fun d => alookup d.creates_with i = some nm)
    (fun x => alookup_ainsert_self _ _ _) p hp hpb

theorem add_drug_creates_entries (s : DrugSet) (n : String) (v : Int) (b i : String)
    (hb : b ≠ "") (hi : i ≠ "") :
    ∀ p ∈ (s.add_drug n v b i).drugs, p.1 = b → alookup p.2.creates_with i = some n := by
  unfold DrugSet.add_drug baseBlock
  rw [if_pos ⟨hb, hi⟩]
  by_cases hbX : (alookup (nameBlock s n v b i).drugs b).isSome
  · rw [if_pos hbX]
    exact addCreates_creates_entries _ b i n
  · rw [if_neg hbX]
    exact addCreates_creates_entries _ b i n

theorem setValue_value_entries (X : DrugSet) (n : String) (v : Int) :
    ∀ p ∈ (setValue X n v).drugs, p.1 = n → p.2.value = v := by
  intro p hp hpn
  rw [drugs_setValue] at hp
  exact aupdate_at_key X.drugs n _ (fun d => d.value = v) (fun x => rfl) p hp hpn

theorem nameBlock_value_entries (s : DrugSet) (n : String) (v : Int) (b i : String)
    (hv : v ≠ 0) :
    ∀ p ∈ (nameBlock s n v b i).drugs, p.1 = n → p.2.value = v := by
  unfold nameBlock
  by_cases hin : (alookup s.drugs n).isSome
  · rw [if_pos hin]
    by_cases hP : b ≠ "" ∧ i ≠ ""
    · rw [if_pos hP, if_pos hv]
      intro p hp hpn
      rw [drugs_addMixed] at hp
      exact aupdate_preserves_pred _ n n
        (fun d => { d with mixed_with := ainsert d.mixed_with i b })
        (fun d => d.value = v) (fun x hx => hx)
        (setValue_value_entries s n v) p hp hpn
    · rw [if_neg hP, if_pos hv]
      exact setValue_value_entries s n v
  · rw [if_neg hin]
    have hnone : alookup s.drugs n = none := by
      cases hcase : alookup s.drugs n
      · rfl
      · rw [hcase] at hin
        exact absurd rfl hin
    have hputv : ∀ p ∈ (putDrug s n (Drug.mk n v [] [])).drugs, p.1 = n → p.2.value = v := by
      intro p hp hpn
      rw [drugs_putDrug] at hp
      exact ainsert_preserves_pred s.drugs n n _ (fun d => d.value = v) (fun hEq => rfl)
        (fun p2 hp2 hp2n => absurd hp2n (alookup_eq_none s.drugs n hnone p2 hp2)) p hp hpn
    by_cases hP : b ≠ "" ∧ i ≠ ""
    · rw [if_pos hP]
      intro p hp hpn
      rw [drugs_addMixed] at hp
      exact aupdate_preserves_pred _ n n
        (fun d => { d with mixed_with := ainsert d.mixed_with i b })
        (fun d => d.value = v) (fun x hx => hx)
        hputv p hp hpn
    · rw [if_neg hP]
      exact hputv

theorem add_drug_value_entries (s : DrugSet) (n : String) (v : Int) (b i : String)
    (hv : v ≠ 0) :
    ∀ p ∈ (s.add_drug n v b i).drugs, p.1 = n → p.2.value = v := by
  unfold DrugSet.add_drug
  exact baseBlock_preserves_pred _ n b i n (fun d => d.value = v)
    (nameBlock_name_present s n v b i) (fun d hd => hd)
    (nameBlock_value_entries s n v b i hv)

theorem add_drug_mixed_lookup (s : DrugSet) (n : String) (v : Int) (b i : String)
    (hb : b ≠ "") (hi : i ≠ "") :
    drugMixedAt (s.add_drug n v b i) n i = some b := by
  obtain ⟨d, hd⟩ := Option.isSome_iff_exists.mp (add_drug_name_present s n v b i)
  unfold drugMixedAt
  rw [hd]
  exact add_drug_mixed_entries s n v b i hb hi (n, d) (alookup_mem _ _ _ hd) rfl

theorem add_drug_creates_lookup (s : DrugSet) (n : String) (v : Int) (b i : String)
    (hb : b ≠ "") (hi : i ≠ "") :
    drugCreatesAt (s.add_drug n v b i) b i = some n := by
  obtain ⟨d, hd⟩ := Option.isSome_iff_exists.mp (add_drug_base_present s n v b i hb hi)
  unfold drugCreatesAt
  rw [hd]
  exact add_drug_creates_entries s n v b i hb hi (b, d) (alookup_mem _ _ _ hd) rfl

/-- C1 (amended): each `add_drug(n, v, b, i)` call with both `b` and `i`
non-empty leaves the pair it inserts mutually inverse:
`drugs[n].mixed_with[i] = b` and `drugs[b].creates_with[i] = n` hold right
after the call. The claimed global invariant over all previously inserted
pairs does not persist: a later call reusing the same base and ingredient
with a different product overwrites `creates_with` and breaks the inverse
for the earlier product (see the counterexample). -/
theorem add_drug_inverse_edge_holds (s : DrugSet) (n : String) (v : Int) (b i : String)
    (hb : b ≠ "") (hi : i ≠ "") :
    drugMixedAt (s.add_drug n v b i) n i = some b ∧
    drugCreatesAt (s.add_drug n v b i) b i = some n :=
  ⟨add_drug_mixed_lookup s n v b i hb hi, add_drug_creates_lookup s n v b i hb hi⟩

theorem add_drug_inverse_edge_holds_witness :
    drugMixedAt (emptyDS.add_drug "A" 0 "B" "x") "A" "x" = some "B" ∧
    drugCreatesAt (emptyDS.add_drug "A" 0 "B" "x") "B" "x" = some "A" :=
  add_drug_inverse_edge_holds emptyDS "A" 0 "B" "x" (by decide) (by decide)

/-- C10: `add_drug` is a total function (it has no error channel in this
embedding because the Python body can raise nothing: it only tests and
assigns dict entries and constructs `Drug` values). Calling it with an
empty name silently creates a drug keyed by the empty string, and calling
it with `base = name` records both the self-referential `mixed_with` entry
and the `creates_with` entry on the same drug. -/
theorem add_drug_total_behavior (s : DrugSet) (n : String) (v : Int) (i : String)
    (hn : n ≠ "") (hi : i ≠ "") :
    (alookup (s.add_drug "" v "" "").drugs "").isSome = true ∧
    drugMixedAt (s.add_drug n v n i) n i = some n ∧
    drugCreatesAt (s.add_drug n v n i) n i = some n :=
  ⟨add_drug_name_present s "" v "" "",
   add_drug_mixed_lookup s n v n i hn hi,
   add_drug_creates_lookup s n v n i hn hi⟩

theorem add_drug_total_behavior_witness :
    (alookup (emptyDS.add_drug "" 1 "" "").drugs "").isSome = true ∧
    drugMixedAt (emptyDS.add_drug "A" 1 "A" "x") "A" "x" = some "A" ∧
    drugCreatesAt (emptyDS.add_drug "A" 1 "A" "x") "A" "x" = some "A" :=
  add_drug_total_behavior emptyDS "A" 1 "x" (by decide) (by decide)

theorem add_drug_fixed (R : DrugSet) (n : String) (v : Int) (b i : String)
    (hRn : (alookup R.drugs n).isSome = true)
    (hval : v ≠ 0 → ∀ p ∈ R.drugs, p.1 = n → p.2.value = v)
    (hmix : b ≠ "" → i ≠ "" → ∀ p ∈ R.drugs, p.1 = n → alookup p.2.mixed_with i = some b)
    (hcre : b ≠ "" → i ≠ "" → ∀ p ∈ R.drugs, p.1 = b → alookup p.2.creates_with i = some n)
    (hRb : b ≠ "" → i ≠ "" → (alookup R.drugs b).isSome = true) :
    R.add_drug n v b i = R := by
  unfold DrugSet.add_drug
  have hNB : nameBlock R n v b i = R := by
    unfold nameBlock
    rw [if_pos hRn]
    have hsv : (if v ≠ 0 then setValue R n v else R) = R := by
      by_cases hv : v ≠ 0
      · rw [if_pos hv]
        unfold setValue
        have hup : aupdate R.drugs n (fun d => { d with value := v }) = R.drugs := by
          apply aupdate_eq_self
          intro p hp hpn
          show ({ p.2 with value := v } : Drug) = p.2
          have hpv : p.2.value = v := hval hv p hp hpn
          rw [← hpv]
        rw [hup]
      · rw [if_neg hv]
    by_cases hP : b ≠ "" ∧ i ≠ ""
    · rw [if_pos hP, hsv]
      unfold addMixed
      have hup : aupdate R.drugs n
          (fun d => { d with mixed_with := ainsert d.mixed_with i b }) = R.drugs := by
        apply aupdate_eq_self
        intro p hp hpn
        show ({ p.2 with mixed_with := ainsert p.2.mixed_with i b } : Drug) = p.2
        have hpm : alookup p.2.mixed_with i = some b := hmix hP.1 hP.2 p hp hpn
        rw [ainsert_eq_self _ _ _ hpm]
      rw [hup]
    · rw [if_neg hP, hsv]
  rw [hNB]
  unfold baseBlock
  by_cases hP : b ≠ "" ∧ i ≠ ""
  · rw [if_pos hP, if_pos (hRb hP.1 hP.2)]
    unfold addCreates
    have hup : aupdate R.drugs b
        (fun d => { d with creates_with := ainsert d.creates_with i n }) = R.drugs := by
      apply aupdate_eq_self
      intro p hp hpb
      show ({ p.2 with creates_with := ainsert p.2.creates_with i n } : Drug) = p.2
      have hpc : alookup p.2.creates_with i = some n := hcre hP.1 hP.2 p hp hpb
      rw [ainsert_eq_self _ _ _ hpc]
    rw [hup]
  · rw [if_neg hP]

/-- C6: `add_drug` is idempotent — repeating a call with identical
arguments from any state produces exactly the same `DrugSet` state (same
association lists, hence the same dicts in the same insertion order) as
performing it once. -/
theorem add_drug_idempotent (s : DrugSet) (n : String) (v : Int) (b i : String) :
    (s.add_drug n v b i).add_drug n v b i = s.add_drug n v b i :=
  add_drug_fixed (s.add_drug n v b i) n v b i
    (add_drug_name_present s n v b i)
    (fun hv => add_drug_value_entries s n v b i hv)
    (fun hb hi => add_drug_mixed_entries s n v b i hb hi)
    (fun hb hi => add_drug_creates_entries s n v b i hb hi)
    (fun hb hi => add_drug_base_present s n v b i hb hi)

theorem valueAt_addMixed (X : DrugSet) (n i b j : String) :
    drugValueAt (addMixed X n i b) j = drugValueAt X j := by
  unfold drugValueAt
  rw [drugs_addMixed]
  by_cases hj : j = n
  · subst hj
    rw [alookup_aupdate_self]
    cases alookup X.drugs j <;> rfl
  · rw [alookup_aupdate_ne _ _ _ _ hj]

theorem valueAt_addCreates (X : DrugSet) (b i nm j : String) :
    drugValueAt (addCreates X b i nm) j = drugValueAt X j := by
  unfold drugValueAt
  rw [drugs_addCreates]
  by_cases hj : j = b
  · subst hj
    rw [alookup_aupdate_self]
    cases alookup X.drugs j <;> rfl
  · rw [alookup_aupdate_ne _ _ _ _ hj]

theorem valueAt_putDrug_ne (X : DrugSet) (k : String) (d : Drug) (j : String)
    (hj : j ≠ k) : drugValueAt (putDrug X k d) j = drugValueAt X j := by
  unfold drugValueAt
  rw [drugs_putDrug, alookup_ainsert_ne _ _ _ _ hj]

theorem nameBlock_valueAt_zero (s : DrugSet) (n : String) (b i : String)
    (hin : (alookup s.drugs n).isSome = true) :
    drugValueAt (nameBlock s n 0 b i) n = drugValueAt s n := by
  unfold nameBlock
  rw [if_pos hin]
  have h0 : ¬((0 : Int) ≠ 0) := fun h => h rfl
  by_cases hP : b ≠ "" ∧ i ≠ ""
  · rw [if_pos hP, if_neg h0, valueAt_addMixed]
  · rw [if_neg hP, if_neg h0]

theorem baseBlock_valueAt (X : DrugSet) (nm b i n : String)
    (hn : (alookup X.drugs n).isSome = true) :
    drugValueAt (baseBlock X nm b i) n = drugValueAt X n := by
  unfold baseBlock
  by_cases hP : b ≠ "" ∧ i ≠ ""
  · rw [if_pos hP]
    by_cases hbX : (alookup X.drugs b).isSome
    · rw [if_pos hbX, valueAt_addCreates]
    · rw [if_neg hbX]
      have hbn : b ≠ n := by
        intro hEq
        rw [hEq] at hbX
        exact hbX hn
      rw [valueAt_addCreates, valueAt_putDrug_ne X b _ n (Ne.symm hbn)]
  · rw [if_neg hP]

/-- C9: value-update policy. When drug `n` already exists with value `v0`,
`add_drug(n, 0, ...)` leaves its value `v0` (zero means "no change"),
while `add_drug(n, v, ...)` with non-zero `v` overwrites the stored value
with exactly `v`. -/
theorem add_drug_value_policy (s : DrugSet) (n : String) (b i : String) (v : Int) (d : Drug)
    (hd : alookup s.drugs n = some d) :
    drugValueAt (s.add_drug n 0 b i) n = some d.value ∧
    (v ≠ 0 → drugValueAt (s.add_drug n v b i) n = some v) := by
  have hin : (alookup s.drugs n).isSome = true := by
    rw [hd]
    rfl
  constructor
  · unfold DrugSet.add_drug
    rw [baseBlock_valueAt _ n b i n (nameBlock_name_present s n 0 b i),
      nameBlock_valueAt_zero s n b i hin]
    unfold drugValueAt
    rw [hd]
    rfl
  · intro hv
    obtain ⟨d2, hd2⟩ := Option.isSome_iff_exists.mp (add_drug_name_present s n v b i)
    have hval2 : d2.value = v :=
      add_drug_value_entries s n v b i hv (n, d2) (alookup_mem _ _ _ hd2) rfl
    unfold drugValueAt
    rw [hd2]
    show some d2.value = some v
    rw [hval2]

theorem add_drug_value_policy_witness :
    drugValueAt (s9.add_drug "A" 0 "B" "x") "A" = some 7 ∧
    drugValueAt (s9.add_drug "A" 9 "B" "x") "A" = some 9 := by
  have h := add_drug_value_policy s9 "A" "B" "x" 9 (Drug.mk "A" 7 [] []) (by decide)
  exact ⟨h.1, h.2 (by decide)⟩

theorem calc_cost_chain_aux (ds : DrugSet) (d : Drug) (n : Nat) (cost : Int) (last : Drug)
    (h : Chain ds d n cost last) :
    ∀ fuel acc, n < fuel →
      calcCostAux ds fuel acc d = PyResult.ok (acc + (cost + last.value)) := by
  induction h with
  | base d2 hb =>
    intro fuel acc hf
    cases fuel with
    | zero => exact absurd hf (Nat.not_lt_zero 0)
    | succ k =>
      have h1 : calcCostAux ds (k + 1) acc d2 = PyResult.ok (acc + d2.value) := by
        simp [calcCostAux, hb]
      rw [h1]
      have h2 : acc + d2.value = acc + (0 + d2.value) := by ring
      rw [h2]
  | step d2 ing child c next n2 rest last2 hnb hfind hing hchild hrest ih =>
    intro fuel acc hf
    cases fuel with
    | zero => exact absurd hf (Nat.not_lt_zero _)
    | succ k =>
      have hk : n2 < k := Nat.lt_of_succ_lt_succ hf
      have h1 : calcCostAux ds (k + 1) acc d2 = calcCostAux ds k (acc + c) next := by
        simp [calcCostAux, hnb, hfind, hing, hchild]
      rw [h1, ih k (acc + c) hk]
      have h3 : acc + c + (rest + last2.value) = acc + (c + rest + last2.value) := by ring
      rw [h3]

/-- C3 (amended): for a drug whose mixture chain (following, at each step,
the first non-self-referential `mixed_with` entry) reaches a base drug,
and whose traversed ingredients are all present in the ingredient table,
`calc_cost` returns the sum of the traversed ingredient costs plus the
terminal base drug's value. An ingredient absent from the table raises
`KeyError` instead of contributing 0 (see the counterexample). -/
theorem calc_cost_chain (ds : DrugSet) (d : Drug) (n : Nat) (cost : Int) (last : Drug)
    (h : Chain ds d n cost last) (fuel : Nat) (hf : n < fuel) :
    calc_cost ds d fuel = PyResult.ok (cost + last.value) := by
  have h2 := calc_cost_chain_aux ds d n cost last h fuel 0 hf
  unfold calc_cost
  rw [h2]
  have h3 : (0 : Int) + (cost + last.value) = cost + last.value := by ring
  rw [h3]

theorem calc_cost_chain_witness : calc_cost wds dA3 2 = PyResult.ok 5 := by
  have hbch : Chain wds dB3 0 0 dB3 := Chain.base dB3 (by decide)
  have hch : Chain wds dA3 1 2 dB3 :=
    Chain.step dA3 "x" "B" 2 dB3 0 0 dB3 (by decide) (by decide) (by decide) (by decide) hbch
  exact calc_cost_chain wds dA3 1 2 dB3 hch 2 (by decide)

/-! Round-trip lemmas for the persistence model. -/

theorem parseStrEntries_strEntries (l : List (String × String)) :
    parseStrEntries (strEntries l) = some l := by
  induction l with
  | nil => rfl
  | cons a t ih =>
    obtain ⟨k2, v2⟩ := a
    show parseStrEntries ((k2, Json.str v2) :: strEntries t) = some ((k2, v2) :: t)
    simp [parseStrEntries, ih]

theorem parseIntEntries_intEntries (l : List (String × Int)) :
    parseIntEntries (intEntries l) = some l := by
  induction l with
  | nil => rfl
  | cons a t ih =>
    obtain ⟨k2, v2⟩ := a
    show parseIntEntries ((k2, Json.int v2) :: intEntries t) = some ((k2, v2) :: t)
    simp [parseIntEntries, ih]

theorem drug_validate_dump (d : Drug) : Drug.model_validate (Drug.model_dump d) = some d := by
  obtain ⟨nm, v, m, c⟩ := d
  show Drug.model_validate (Json.obj [("name", Json.str nm), ("value", Json.int v),
      ("mixed_with", Json.obj (strEntries m)),
      ("creates_with", Json.obj (strEntries c))]) = some (Drug.mk nm v m c)
  simp [Drug.model_validate, alookup, parseIntField, parseStrDictField,
    parseStrEntries_strEntries]

theorem parseDrugEntries_drugEntries (l : List (String × Drug)) :
    parseDrugEntries (drugEntries l) = some l := by
  induction l with
  | nil => rfl
  | cons a t ih =>
    obtain ⟨k2, d2⟩ := a
    show parseDrugEntries ((k2, Drug.model_dump d2) :: drugEntries t) = some ((k2, d2) :: t)
    simp [parseDrugEntries, drug_validate_dump, ih]

/-- C8: save/load round-trip. Serializing a `DrugSet` with `model_dump`
and validating the resulting snapshot value with `model_validate`
reproduces the set exactly — every drug with its name, value, `mixed_with`
and `creates_with` in order, and the ingredient table. The file layer
(`json.dump`/`json.load` on this value) is a lossless transport for
string/int/object data, so `load_from_file(save_to_file(S))` is deep-equal
to `S`. -/
theorem model_dump_validate_roundtrip (s : DrugSet) :
    DrugSet.model_validate (DrugSet.model_dump s) = some s := by
  obtain ⟨ds, ing⟩ := s
  show DrugSet.model_validate (Json.obj [("drugs", Json.obj (drugEntries ds)),
      ("ingredients", Json.obj (intEntries ing))]) = some (DrugSet.mk ds ing)
  simp [DrugSet.model_validate, alookup, parseDrugDictField, parseIntDictField,
    parseDrugEntries_drugEntries, parseIntEntries_intEntries]

end ScheduleHelper
